import Mathlib

/-!
Shallow embedding of `src/container.hh` from the Voro++ library (container
classes for 3D Voronoi tessellation).  C++ `double` scalars are modelled as
`ℚ` (exact field arithmetic), C++ `int` box indices as `ℤ`, and array counts
as `ℕ`.  Particle storage arrays `id`/`p` are modelled as total functions
from (box index, slot) to values, which is faithful for the index ranges the
code actually reads.  The polymorphic cell classes (`voronoicell`,
`voronoicell_neighbor`, defined in `cell.hh`, outside the embedded header)
are abstracted by a type parameter `Cell`; a wall's `cut_cell` mutating a
cell by reference and returning `bool` is modelled as `Cell → Bool × Cell`.
-/

namespace Voro

/-- Embedding of the abstract `wall` class (container.hh lines 31-43): a wall
offers a point-membership test and a cell-cutting operation.  `cut_cell`
returns the survival flag together with the (possibly mutated) cell. -/
structure wall (Cell : Type) where
  point_inside : ℚ → ℚ → ℚ → Bool
  cut_cell : Cell → ℚ → ℚ → ℚ → Bool × Cell

/-- Embedding of `wall_list::point_inside_walls` (container.hh lines 56-59):
walk the wall array in order; return `false` at the first wall whose
`point_inside` fails, `true` if all pass.  The wall array `walls..wep` is
modelled as a `List`. -/
def point_inside_walls {Cell : Type} : List (wall Cell) → ℚ → ℚ → ℚ → Bool
  | [], _, _, _ => true
  | w :: ws, x, y, z =>
    if w.point_inside x y z then point_inside_walls ws x y z else false

/-- Embedding of `wall_list::apply_walls` (container.hh lines 60-64): apply
each wall's `cut_cell` in order, threading the mutated cell; return
`(false, c)` as soon as a cut annihilates the cell (the loop returns without
touching later walls), `(true, c)` with the fully cut cell otherwise. -/
def apply_walls {Cell : Type} : List (wall Cell) → Cell → ℚ → ℚ → ℚ → Bool × Cell
  | [], c, _, _, _ => (true, c)
  | w :: ws, c, x, y, z =>
    match w.cut_cell c x y z with
    | (true, c2) => apply_walls ws c2 x y z
    | (false, c2) => (false, c2)

/-- Embedding of the state of `container_base` (container.hh lines 75-172)
together with its inherited `wall_list` and the grid dimensions from
`voropp_base`.  The C++ field `by` is renamed `by_` (`by` is a Lean keyword).
`id`, `p`, `co`, `mem` are the per-box particle id array, packed position
array, particle count and capacity. -/
structure container_base (Cell : Type) where
  ax : ℚ
  bx : ℚ
  ay : ℚ
  by_ : ℚ
  az : ℚ
  bz : ℚ
  nx : ℤ
  ny : ℤ
  nz : ℤ
  xperiodic : Bool
  yperiodic : Bool
  zperiodic : Bool
  walls : List (wall Cell)
  id : ℤ → ℕ → ℤ
  p : ℤ → ℕ → ℚ
  co : ℤ → ℕ
  mem : ℤ → ℕ
  ps : ℕ

/-- Box side length `boxx` from `voropp_base` (spec §3: `boxx,boxy,boxz` are
the box side lengths of the `nx·ny·nz` partition). -/
def boxx {Cell : Type} (con : container_base Cell) : ℚ := (con.bx - con.ax) / con.nx

/-- Box side length `boxy`. -/
def boxy {Cell : Type} (con : container_base Cell) : ℚ := (con.by_ - con.ay) / con.ny

/-- Box side length `boxz`. -/
def boxz {Cell : Type} (con : container_base Cell) : ℚ := (con.bz - con.az) / con.nz

/-- State of a `v_loop` iterator as read by `initialize_voronoicell`: the
current box linear index `ijk`, slot `q`, and box coordinates `i,j,k`. -/
structure v_loop where
  ijk : ℤ
  q : ℕ
  i : ℤ
  j : ℤ
  k : ℤ

/-- Abstraction of the cell class capability used by
`initialize_voronoicell`: `c.init(x1,x2,y1,y2,z1,z2)` builds the axis-aligned
box cell with those bounds. -/
structure cell_ops (Cell : Type) where
  cinit : ℚ → ℚ → ℚ → ℚ → ℚ → ℚ → Cell

/-- Source x-coordinate `cux` read by `initialize_voronoicell` (container.hh
lines 144-145): `p[vl.ijk][ps*vl.q]`. -/
def ivc_cux {Cell : Type} (con : container_base Cell) (vl : v_loop) : ℚ :=
  con.p vl.ijk (con.ps * vl.q)

/-- Source y-coordinate `cuy`: `p[vl.ijk][ps*vl.q+1]`. -/
def ivc_cuy {Cell : Type} (con : container_base Cell) (vl : v_loop) : ℚ :=
  con.p vl.ijk (con.ps * vl.q + 1)

/-- Source z-coordinate `cuz`: `p[vl.ijk][ps*vl.q+2]`. -/
def ivc_cuz {Cell : Type} (con : container_base Cell) (vl : v_loop) : ℚ :=
  con.p vl.ijk (con.ps * vl.q + 2)

/-- Lower x bound `x1` computed by container.hh line 147:
`if(xperiodic) x1=-(x2=0.5*(bx-ax)); else x1=ax-cux`. -/
def ivc_x1 {Cell : Type} (con : container_base Cell) (cux : ℚ) : ℚ :=
  if con.xperiodic then -(1/2 * (con.bx - con.ax)) else con.ax - cux

/-- Upper x bound `x2` computed by container.hh line 147. -/
def ivc_x2 {Cell : Type} (con : container_base Cell) (cux : ℚ) : ℚ :=
  if con.xperiodic then 1/2 * (con.bx - con.ax) else con.bx - cux

/-- Search start index `sti` computed by container.hh line 147:
`nx` when periodic, the current box coordinate otherwise. -/
def ivc_sti {Cell : Type} (con : container_base Cell) (cui : ℤ) : ℤ :=
  if con.xperiodic then con.nx else cui

/-- Lower y bound `y1` computed by container.hh line 148. -/
def ivc_y1 {Cell : Type} (con : container_base Cell) (cuy : ℚ) : ℚ :=
  if con.yperiodic then -(1/2 * (con.by_ - con.ay)) else con.ay - cuy

/-- Upper y bound `y2` computed by container.hh line 148. -/
def ivc_y2 {Cell : Type} (con : container_base Cell) (cuy : ℚ) : ℚ :=
  if con.yperiodic then 1/2 * (con.by_ - con.ay) else con.by_ - cuy

/-- Search start index `stj` computed by container.hh line 148. -/
def ivc_stj {Cell : Type} (con : container_base Cell) (cuj : ℤ) : ℤ :=
  if con.yperiodic then con.ny else cuj

/-- Lower z bound `z1` computed by container.hh line 149. -/
def ivc_z1 {Cell : Type} (con : container_base Cell) (cuz : ℚ) : ℚ :=
  if con.zperiodic then -(1/2 * (con.bz - con.az)) else con.az - cuz

/-- Upper z bound `z2` computed by container.hh line 149. -/
def ivc_z2 {Cell : Type} (con : container_base Cell) (cuz : ℚ) : ℚ :=
  if con.zperiodic then 1/2 * (con.bz - con.az) else con.bz - cuz

/-- Search start index `stk` computed by container.hh line 149. -/
def ivc_stk {Cell : Type} (con : container_base Cell) (cuk : ℤ) : ℤ :=
  if con.zperiodic then con.nz else cuk

/-- Cell passed to `c.init` by container.hh line 150, before any wall cut is
applied: the axis-aligned box with the bounds of lines 147-149. -/
def ivc_precell {Cell : Type} (con : container_base Cell) (ops : cell_ops Cell)
    (vl : v_loop) : Cell :=
  ops.cinit (ivc_x1 con (ivc_cux con vl)) (ivc_x2 con (ivc_cux con vl))
    (ivc_y1 con (ivc_cuy con vl)) (ivc_y2 con (ivc_cuy con vl))
    (ivc_z1 con (ivc_cuz con vl)) (ivc_z2 con (ivc_cuz con vl))

/-- Result record of `initialize_voronoicell`: the returned boolean, the cell
after wall cuts, the out-parameters `sti,stj,stk` and the scratch fields
`cux..cuk`, `cuijk` written on the container.  In the C++ the scratch field
`cuijk` is only assigned on the success path (line 152); here it always
carries the value that line would compute. -/
structure ivc_result (Cell : Type) where
  survived : Bool
  cell : Cell
  sti : ℤ
  stj : ℤ
  stk : ℤ
  cux : ℚ
  cuy : ℚ
  cuz : ℚ
  cui : ℤ
  cuj : ℤ
  cuk : ℤ
  cuijk : ℤ

/-- Embedding of `container_base::initialize_voronoicell` (container.hh lines
141-154): read the source position from `p[vl.ijk]` at slot `vl.q`, build the
initial box cell (periodic axes get symmetric half-extents, non-periodic axes
the wall-relative bounds), apply the wall list, and report whether the cell
survived. -/
def initialize_voronoicell {Cell : Type} (con : container_base Cell)
    (ops : cell_ops Cell) (vl : v_loop) : ivc_result Cell :=
  ⟨(apply_walls con.walls (ivc_precell con ops vl)
      (ivc_cux con vl) (ivc_cuy con vl) (ivc_cuz con vl)).1,
   (apply_walls con.walls (ivc_precell con ops vl)
      (ivc_cux con vl) (ivc_cuy con vl) (ivc_cuz con vl)).2,
   ivc_sti con vl.i, ivc_stj con vl.j, ivc_stk con vl.k,
   ivc_cux con vl, ivc_cuy con vl, ivc_cuz con vl,
   vl.i, vl.j, vl.k,
   vl.ijk - ivc_sti con vl.i - con.nx * (ivc_stj con vl.j + con.ny * ivc_stk con vl.k)⟩

/-- Embedding of `container::compute_cell` / `container_poly::compute_cell`
(container.hh lines 250-255 and 341-346): initialize the cell; on failure
return `false` without invoking the compute kernel; otherwise hand off to
`voropp_compute::compute_cell`, abstracted here as the parameter `vc`
(its body lives in `v_compute.hh`, outside the embedded header). -/
def compute_cell {Cell : Type} (con : container_base Cell) (ops : cell_ops Cell)
    (vc : ivc_result Cell → v_loop → Bool) (vl : v_loop) : Bool :=
  if (initialize_voronoicell con ops vl).survived then
    vc (initialize_voronoicell con ops vl) vl
  else false

/-- Wrapped x offset `ei` computed by container.hh line 161: on a periodic
axis, an offset landing below the home copy `[nx,2nx)` is shifted up by `nx`,
one landing at or above `2nx` is shifted down by `nx`; a non-periodic axis is
untouched. -/
def region_wrap_e (periodic : Bool) (n cu e : ℤ) : ℤ :=
  if periodic then
    if cu + e < n then e + n else if 2 * n ≤ cu + e then e - n else e
  else e

/-- Displacement `qx` computed by container.hh line 161: `-(bx-ax)` when the
offset wraps below, `bx-ax` when it wraps above, `0` inside; a non-periodic
axis leaves the by-reference argument unchanged (the C++ never writes it). -/
def region_wrap_q (periodic : Bool) (n cu e : ℤ) (len qold : ℚ) : ℚ :=
  if periodic then
    if cu + e < n then -len else if 2 * n ≤ cu + e then len else 0
  else qold

/-- Embedding of `container_base::region_index` (container.hh lines 160-165).
The scratch fields `cui,cuj,cuk,cuijk` are passed explicitly; the
by-reference out-parameters `qx,qy,qz` are modelled as inputs (their values
when the axis is non-periodic) and returned alongside the linearized box
index `cuijk + ei + nx*(ej + ny*ek)` over the wrapped offsets. -/
def region_index {Cell : Type} (con : container_base Cell)
    (cui cuj cuk cuijk ei ej ek : ℤ) (qx qy qz : ℚ) : ℤ × ℚ × ℚ × ℚ :=
  (cuijk + region_wrap_e con.xperiodic con.nx cui ei
     + con.nx * (region_wrap_e con.yperiodic con.ny cuj ej
       + con.ny * region_wrap_e con.zperiodic con.nz cuk ek),
   region_wrap_q con.xperiodic con.nx cui ei (con.bx - con.ax) qx,
   region_wrap_q con.yperiodic con.ny cuj ej (con.by_ - con.ay) qy,
   region_wrap_q con.zperiodic con.nz cuk ek (con.bz - con.az) qz)

/-- Embedding of the state of `container_poly` (container.hh lines 264-362):
the base container (with `ps = 4`, so `p[ijk][4q+3]` is the radius of the
particle in slot `q`) plus the maximum particle radius `max_radius`. -/
structure container_poly (Cell : Type) extends container_base Cell where
  max_radius : ℚ

/-- Scratch pair `(r_rad, r_mul)` written by `container_poly::r_init`. -/
structure r_state where
  r_rad : ℚ
  r_mul : ℚ

/-- Embedding of `container_poly::r_init` (container.hh lines 350-354): read
the source radius `p[ijk][4s+3]`, set
`r_mul = 1 + (r²-max_radius²)/((max_radius+r)²)` and square `r_rad`. -/
def r_init {Cell : Type} (cp : container_poly Cell) (ijk : ℤ) (s : ℕ) : r_state :=
  ⟨cp.p ijk (4 * s + 3) * cp.p ijk (4 * s + 3),
   1 + (cp.p ijk (4 * s + 3) * cp.p ijk (4 * s + 3)
        - cp.max_radius * cp.max_radius)
     / ((cp.max_radius + cp.p ijk (4 * s + 3))
        * (cp.max_radius + cp.p ijk (4 * s + 3)))⟩

/-- Embedding of `container_poly::r_cutoff` (container.hh lines 355-357):
scale the raw worklist cutoff by the multiplier set up by `r_init`. -/
def r_cutoff (st : r_state) (lrs : ℚ) : ℚ := st.r_mul * lrs

/-- Embedding of `container_poly::r_scale` (container.hh lines 358-360): the
effective cut value `rs + r_rad - p[ijk][4q+3]²` for the candidate in slot
`q` of box `ijk`. -/
def r_scale {Cell : Type} (cp : container_poly Cell) (st : r_state) (rs : ℚ)
    (ijk : ℤ) (q : ℕ) : ℚ :=
  rs + st.r_rad - cp.p ijk (4 * q + 3) * cp.p ijk (4 * q + 3)

/-- Periodic remap of one coordinate into the canonical interval `[a,b)` by
an integer multiple of the axis length, identity on a non-periodic axis
(spec §4.2: shift by integer multiples of the side length into the canonical
box). -/
def remap_axis (periodic : Bool) (a b x : ℚ) : ℚ :=
  if periodic then x - (b - a) * (⌊(x - a) / (b - a)⌋ : ℚ) else x

/-- Modelled from the spec: `container_base::point_inside`, whose body lives
in `container.cc` and is absent from `src/`.  Spec §4.2: true iff the point
lies in the container box after periodic remap and every wall reports
`point_inside` (the wall conjunction is the in-source
`wall_list::point_inside_walls`, container.hh lines 56-59). -/
def point_inside {Cell : Type} (con : container_base Cell) (x y z : ℚ) : Bool :=
  (decide (con.ax ≤ remap_axis con.xperiodic con.ax con.bx x) &&
   decide (remap_axis con.xperiodic con.ax con.bx x ≤ con.bx) &&
   decide (con.ay ≤ remap_axis con.yperiodic con.ay con.by_ y) &&
   decide (remap_axis con.yperiodic con.ay con.by_ y ≤ con.by_) &&
   decide (con.az ≤ remap_axis con.zperiodic con.az con.bz z) &&
   decide (remap_axis con.zperiodic con.az con.bz z ≤ con.bz)) &&
  point_inside_walls con.walls (remap_axis con.xperiodic con.ax con.bx x)
    (remap_axis con.yperiodic con.ay con.by_ y)
    (remap_axis con.zperiodic con.az con.bz z)

/-- Modelled from the spec: `container_base::put_locate_block`, whose body
lives in `container.cc` and is absent from `src/`.  Spec §4.2 insertion: a
coordinate on a non-periodic axis outside `[a·,b·]` is rejected (domain
error, modelled as `none`); a periodic coordinate is shifted into the
canonical box; the box index is `floor((·-a·)/box·)`, linearized as
`i + nx*(j + ny*k)`.  On success, returns the box index and the remapped
position. -/
def put_locate_block {Cell : Type} (con : container_base Cell) (x y z : ℚ) :
    Option (ℤ × ℚ × ℚ × ℚ) :=
  if (con.xperiodic = false ∧ (x < con.ax ∨ con.bx < x)) ∨
     (con.yperiodic = false ∧ (y < con.ay ∨ con.by_ < y)) ∨
     (con.zperiodic = false ∧ (z < con.az ∨ con.bz < z)) then none
  else
    some (⌊(remap_axis con.xperiodic con.ax con.bx x - con.ax) / boxx con⌋
            + con.nx * (⌊(remap_axis con.yperiodic con.ay con.by_ y - con.ay) / boxy con⌋
              + con.ny * ⌊(remap_axis con.zperiodic con.az con.bz z - con.az) / boxz con⌋),
          remap_axis con.xperiodic con.ax con.bx x,
          remap_axis con.yperiodic con.ay con.by_ y,
          remap_axis con.zperiodic con.az con.bz z)

/-- Modelled from the spec: `container::put`, whose body lives in
`container.cc` and is absent from `src/`.  Spec §4.2: locate (and possibly
remap) the point, rejecting out-of-range non-periodic coordinates; append the
id and coordinates at slot `co[ijk]`; double `mem[ijk]` when the box is full;
increment `co[ijk]`.  The configurable memory ceiling (a `config.hh`
constant, absent from `src/`) is not modelled.  Rejection returns `none`: no
particle is stored. -/
def put {Cell : Type} (con : container_base Cell) (n : ℤ) (x y z : ℚ) :
    Option (container_base Cell) :=
  match put_locate_block con x y z with
  | none => none
  | some (ijk, x2, y2, z2) =>
    some { con with
      id := fun b sl => if b = ijk ∧ sl = con.co ijk then n else con.id b sl,
      p := fun b idx =>
        if b = ijk ∧ idx = con.ps * con.co ijk then x2
        else if b = ijk ∧ idx = con.ps * con.co ijk + 1 then y2
        else if b = ijk ∧ idx = con.ps * con.co ijk + 2 then z2
        else con.p b idx,
      co := fun b => if b = ijk then con.co ijk + 1 else con.co b,
      mem := fun b =>
        if b = ijk ∧ con.co ijk = con.mem ijk then 2 * con.mem ijk else con.mem b }

/-- Modelled from the spec: `container::clear`, whose body lives in
`container.cc` and is absent from `src/`.  Spec §3 lifecycles: clearing
resets `co[·]` to 0; capacities (and all other state) are retained. -/
def clear {Cell : Type} (con : container_base Cell) : container_base Cell :=
  { con with co := fun _ => 0 }

/-- Follows the spec's words (spec §4.3 pre-initialization): the initial cell
bounds on one axis are, for a non-periodic axis, `(a-source)` to `(b-source)`,
and for a periodic axis, `-L/2` to `+L/2` where `L = b - a` is the axis
length.  Stated separately from the source-derived `ivc_x1`/`ivc_x2` so the
two can be compared. -/
def spec_cell_bounds (periodic : Bool) (a b src : ℚ) : ℚ × ℚ :=
  if periodic then (-((b - a) / 2), (b - a) / 2) else (a - src, b - src)

/-- Follows the spec's words (spec §4.2 region enumeration, periodic case):
on a periodic axis the wrapped offset and the displacement to add to
candidate positions are `(e+n, -(b-a))` when the offset wraps below the home
range `[n,2n)`, `(e-n, b-a)` when it wraps above, `(e, 0)` inside.  Stated
separately from the source-derived `region_wrap_e`/`region_wrap_q` so the
two can be compared. -/
def spec_wrap_offset (n : ℤ) (len : ℚ) (cu e : ℤ) : ℤ × ℚ :=
  if cu + e < n then (e + n, -len)
  else if 2 * n ≤ cu + e then (e - n, len)
  else (e, 0)

/-- Modelled from the spec: the per-axis guard of the region-enumerating
caller of `region_index`, the cell compute driver `voropp_compute`
(`v_compute.hh`, absent from src/).  Spec §4.2: "Non-periodic axes clamp" -
on a non-periodic axis the enumerated neighbor-box coordinate is clamped to
the grid range `[0,n)`, so only such coordinates reach `region_index`. -/
def spec_clamped (n c : ℤ) : Bool :=
  decide (0 ≤ c ∧ c < n)

/-- Per-axis result of `region_index` (container.hh lines 161-163): a
periodic axis wraps per the spec-worded `spec_wrap_offset`; a non-periodic
axis leaves the offset and the by-reference displacement argument untouched
(`region_index` itself never moves a non-periodic coordinate - the clamping
of non-periodic axes belongs to the enumerating caller, modelled by
`spec_clamped`). -/
def wrap_or_pass (periodic : Bool) (n : ℤ) (len : ℚ) (cu e : ℤ) (qold : ℚ) :
    ℤ × ℚ :=
  if periodic then spec_wrap_offset n len cu e else (e, qold)

/-- Concrete non-periodic `[0,1]³` container with a 5×5×5 grid, no walls,
empty particle store, `ps = 3`, used to evaluate the theorems on explicit
inputs. -/
def ucon : container_base Unit :=
  ⟨0, 1, 0, 1, 0, 1, 5, 5, 5, false, false, false, [],
   fun _ _ => 0, fun _ _ => 0, fun _ => 0, fun _ => 8, 3⟩

/-- Concrete container like `ucon` but periodic along x, used to evaluate the
region-enumeration theorems on explicit inputs. -/
def pecon : container_base Unit :=
  { ucon with xperiodic := true }

/-- Concrete wall whose cut always annihilates the cell. -/
def wkill : wall Unit :=
  ⟨fun _ _ _ => true, fun c _ _ _ => (false, c)⟩

/-- The concrete container `ucon` carrying the annihilating wall `wkill`. -/
def wcon : container_base Unit :=
  { ucon with walls := [wkill] }

/-- Trivial cell operations over the degenerate cell type `Unit`. -/
def ops0 : cell_ops Unit :=
  ⟨fun _ _ _ _ _ _ => ()⟩

/-- Concrete loop state at box 0, slot 0. -/
def vl0 : v_loop :=
  ⟨0, 0, 0, 0, 0⟩

/-- Trivial compute kernel that always succeeds. -/
def vc0 : ivc_result Unit → v_loop → Bool :=
  fun _ _ => true

/-- Concrete weighted container whose particle radii are all `0` (slot 3 of
every particle reads `0`) with `max_radius = 1`. -/
def cpoly0 : container_poly Unit :=
  ⟨{ ucon with ps := 4 }, 1⟩

/-- Concrete weighted container whose particle radii are all `1/2` with
`max_radius = 1`. -/
def cpoly1 : container_poly Unit :=
  ⟨{ ucon with ps := 4, p := fun _ idx => if idx % 4 = 3 then 1/2 else 0 }, 1⟩

lemma point_inside_walls_iff {Cell : Type} (ws : List (wall Cell)) (x y z : ℚ) :
    point_inside_walls ws x y z = true ↔ ∀ w ∈ ws, w.point_inside x y z = true := by
  induction ws with
  | nil => simp [point_inside_walls]
  | cons w ws ih =>
    by_cases h : w.point_inside x y z = true <;>
      simp [point_inside_walls, h, ih]

lemma wrap_eq_spec (p : Bool) (n cu e : ℤ) (len q : ℚ) :
    region_wrap_e p n cu e = (wrap_or_pass p n len cu e q).1 ∧
    region_wrap_q p n cu e len q = (wrap_or_pass p n len cu e q).2 := by
  cases p <;>
    unfold region_wrap_e region_wrap_q wrap_or_pass spec_wrap_offset <;>
    constructor <;> split_ifs <;> rfl

/-- C1: for the particle stored at box `vl.ijk`, slot `vl.q`,
`initialize_voronoicell` builds the cell, before any wall cut, as the
axis-aligned box whose bounds are `(a-source, b-source)` on a non-periodic
axis and `(-L/2, L/2)` with `L = b - a` on a periodic axis; the returned cell
is that box with the wall list applied. -/
theorem claim1_initial_cell_is_container_box {Cell : Type} (con : container_base Cell)
    (ops : cell_ops Cell) (vl : v_loop) :
    ivc_precell con ops vl =
      ops.cinit (spec_cell_bounds con.xperiodic con.ax con.bx (ivc_cux con vl)).1
        (spec_cell_bounds con.xperiodic con.ax con.bx (ivc_cux con vl)).2
        (spec_cell_bounds con.yperiodic con.ay con.by_ (ivc_cuy con vl)).1
        (spec_cell_bounds con.yperiodic con.ay con.by_ (ivc_cuy con vl)).2
        (spec_cell_bounds con.zperiodic con.az con.bz (ivc_cuz con vl)).1
        (spec_cell_bounds con.zperiodic con.az con.bz (ivc_cuz con vl)).2 ∧
    (initialize_voronoicell con ops vl).cell =
      (apply_walls con.walls (ivc_precell con ops vl)
        (ivc_cux con vl) (ivc_cuy con vl) (ivc_cuz con vl)).2 := by
  constructor
  · unfold ivc_precell spec_cell_bounds ivc_x1 ivc_x2 ivc_y1 ivc_y2 ivc_z1 ivc_z2
    cases con.xperiodic <;> cases con.yperiodic <;> cases con.zperiodic <;>
      simp <;> ring_nf
  · rfl

/-- C2: in `container_poly`, after `r_init` for the source in slot `s` of box
`ijk`, `r_scale` maps a raw squared offset `lrs` (and candidate slot `q` of
box `jjk`) to `lrs + r_s² - r_t²`, and `r_cutoff` maps `lrs` to `r_mul·lrs`
with `r_mul = 1 + (r_s² - M²)/(M + r_s)²`, `M` the container maximum
radius. -/
theorem claim2_weighted_scale_and_cutoff {Cell : Type} (cp : container_poly Cell)
    (ijk jjk : ℤ) (s q : ℕ) (lrs : ℚ) :
    r_scale cp (r_init cp ijk s) lrs jjk q
        = lrs + cp.p ijk (4 * s + 3) ^ 2 - cp.p jjk (4 * q + 3) ^ 2 ∧
    r_cutoff (r_init cp ijk s) lrs
        = (1 + (cp.p ijk (4 * s + 3) ^ 2 - cp.max_radius ^ 2)
            / (cp.max_radius + cp.p ijk (4 * s + 3)) ^ 2) * lrs := by
  simp only [r_scale, r_cutoff, r_init]
  constructor <;> ring

/-- C3: the point-in-domain test holds exactly when the (periodically
remapped) point lies in the container box and every wall's `point_inside`
holds at it; and `point_inside_walls` is the conjunction of the walls'
`point_inside` tests. -/
theorem claim3_point_inside_iff {Cell : Type} (con : container_base Cell)
    (ws : List (wall Cell)) (x y z : ℚ) :
    (point_inside con x y z = true ↔
      (con.ax ≤ remap_axis con.xperiodic con.ax con.bx x ∧
       remap_axis con.xperiodic con.ax con.bx x ≤ con.bx ∧
       con.ay ≤ remap_axis con.yperiodic con.ay con.by_ y ∧
       remap_axis con.yperiodic con.ay con.by_ y ≤ con.by_ ∧
       con.az ≤ remap_axis con.zperiodic con.az con.bz z ∧
       remap_axis con.zperiodic con.az con.bz z ≤ con.bz ∧
       ∀ w ∈ con.walls,
         w.point_inside (remap_axis con.xperiodic con.ax con.bx x)
           (remap_axis con.yperiodic con.ay con.by_ y)
           (remap_axis con.zperiodic con.az con.bz z) = true)) ∧
    (point_inside_walls ws x y z = true ↔
      ∀ w ∈ ws, w.point_inside x y z = true) := by
  constructor
  · unfold point_inside
    simp [point_inside_walls_iff, and_assoc]
  · exact point_inside_walls_iff ws x y z

/-- C4: `apply_walls` on an empty list returns `(true, c)`; on `w :: ws` it
first cuts with `w` and, if that cut fails, returns `false` with the mutated
cell without consulting any wall of `ws` (the result is independent of `ws`);
it succeeds exactly when the head cut and all remaining cuts survive. -/
theorem claim4_apply_walls_order_and_short_circuit {Cell : Type} (w : wall Cell)
    (ws : List (wall Cell)) (c : Cell) (x y z : ℚ) :
    apply_walls ([] : List (wall Cell)) c x y z = (true, c) ∧
    apply_walls (w :: ws) c x y z =
      (if (w.cut_cell c x y z).1 = true then
        apply_walls ws (w.cut_cell c x y z).2 x y z
      else (false, (w.cut_cell c x y z).2)) ∧
    (apply_walls (w :: ws) c x y z).1
      = ((w.cut_cell c x y z).1 && (apply_walls ws (w.cut_cell c x y z).2 x y z).1) := by
  refine ⟨rfl, ?_, ?_⟩ <;>
    · rcases hw : w.cut_cell c x y z with ⟨b, c2⟩
      cases b <;> simp [apply_walls, hw]

/-- C5: if the wall cuts annihilate the freshly initialized cell then
`initialize_voronoicell` returns `false` and `compute_cell` reports "no cell"
by returning `false` (no error state exists in the embedding); if the cell
survives the walls, initialization returns `true`. -/
theorem claim5_wall_annihilation_reports_no_cell {Cell : Type}
    (con : container_base Cell) (ops : cell_ops Cell)
    (vc : ivc_result Cell → v_loop → Bool) (vl : v_loop) :
    ((apply_walls con.walls (ivc_precell con ops vl)
        (ivc_cux con vl) (ivc_cuy con vl) (ivc_cuz con vl)).1 = false →
      (initialize_voronoicell con ops vl).survived = false ∧
      compute_cell con ops vc vl = false) ∧
    ((apply_walls con.walls (ivc_precell con ops vl)
        (ivc_cux con vl) (ivc_cuy con vl) (ivc_cuz con vl)).1 = true →
      (initialize_voronoicell con ops vl).survived = true) := by
  constructor
  · intro h
    refine ⟨h, ?_⟩
    simp [compute_cell, initialize_voronoicell, h]
  · intro h
    exact h

/-- Witness for C5: on the concrete container `wcon`, whose single wall
annihilates every cell, initialization and `compute_cell` both report
failure. -/
theorem claim5_witness :
    (initialize_voronoicell wcon ops0 vl0).survived = false ∧
    compute_cell wcon ops0 vc0 vl0 = false :=
  (claim5_wall_annihilation_reports_no_cell wcon ops0 vc0 vl0).1 rfl

/-- C6: three-part statement.  First, `region_index` returns the linearized
target index `cuijk + ei + nx·(ej + ny·ek)` over per-axis wrapped offsets,
where a periodic axis wraps per the spec-worded `spec_wrap_offset`
(displacement `-(b-a)`, `0`, or `b-a` according to whether the offset wraps
below, stays inside, or wraps above the home range `[n,2n)`) and a
non-periodic axis passes the offset and the by-reference displacement
argument through unchanged.  Second, non-periodic axes clamp: under the
spec-modelled enumeration guard `spec_clamped` of the caller, the coordinate
reaching `region_index` on a non-periodic axis stays in the grid `[0,n)`,
`region_index` does not move it, and no displacement is recorded.  Third,
the displacement expresses a candidate in the source particle's reference
frame: for a positive grid dimension `n` (spec §6: `nx,ny,nz` are positive),
a stored coordinate `pc` in the canonical domain `[a,b)`, displaced
by the recorded `spec_wrap_offset` value, lands in the copy of the domain
one period below (`[a-L, b-L)`), at home (unchanged), or one period above
(`[a+L, b+L)`), matching the wrap direction of the searched box, so the
displaced position is the periodic image comparable with the source
position in one global frame. -/
theorem claim6_region_index_wrap {Cell : Type} (con : container_base Cell)
    (cui cuj cuk cuijk ei ej ek : ℤ) (qx qy qz : ℚ) :
    region_index con cui cuj cuk cuijk ei ej ek qx qy qz =
      (cuijk + (wrap_or_pass con.xperiodic con.nx (con.bx - con.ax) cui ei qx).1
        + con.nx * ((wrap_or_pass con.yperiodic con.ny (con.by_ - con.ay) cuj ej qy).1
          + con.ny * (wrap_or_pass con.zperiodic con.nz (con.bz - con.az) cuk ek qz).1),
       (wrap_or_pass con.xperiodic con.nx (con.bx - con.ax) cui ei qx).2,
       (wrap_or_pass con.yperiodic con.ny (con.by_ - con.ay) cuj ej qy).2,
       (wrap_or_pass con.zperiodic con.nz (con.bz - con.az) cuk ek qz).2) ∧
    (∀ (n cu e : ℤ) (len qold : ℚ), spec_clamped n (cu + e) = true →
      0 ≤ cu + region_wrap_e false n cu e ∧ cu + region_wrap_e false n cu e < n ∧
      region_wrap_q false n cu e len qold = qold) ∧
    (∀ (n cu e : ℤ) (a b pc : ℚ), 0 < n → a ≤ pc → pc < b →
      (cu + e < n →
        a - (b - a) ≤ pc + (spec_wrap_offset n (b - a) cu e).2 ∧
        pc + (spec_wrap_offset n (b - a) cu e).2 < b - (b - a)) ∧
      (n ≤ cu + e → cu + e < 2 * n →
        pc + (spec_wrap_offset n (b - a) cu e).2 = pc) ∧
      (2 * n ≤ cu + e →
        a + (b - a) ≤ pc + (spec_wrap_offset n (b - a) cu e).2 ∧
        pc + (spec_wrap_offset n (b - a) cu e).2 < b + (b - a))) := by
  refine ⟨?_, ?_, ?_⟩
  · unfold region_index
    rw [(wrap_eq_spec con.xperiodic con.nx cui ei (con.bx - con.ax) qx).1,
        (wrap_eq_spec con.yperiodic con.ny cuj ej (con.by_ - con.ay) qy).1,
        (wrap_eq_spec con.zperiodic con.nz cuk ek (con.bz - con.az) qz).1,
        (wrap_eq_spec con.xperiodic con.nx cui ei (con.bx - con.ax) qx).2,
        (wrap_eq_spec con.yperiodic con.ny cuj ej (con.by_ - con.ay) qy).2,
        (wrap_eq_spec con.zperiodic con.nz cuk ek (con.bz - con.az) qz).2]
  · intro n cu e len qold hg
    have hg2 : 0 ≤ cu + e ∧ cu + e < n := by
      simpa [spec_clamped] using hg
    refine ⟨?_, ?_, ?_⟩
    · simpa [region_wrap_e] using hg2.1
    · simpa [region_wrap_e] using hg2.2
    · simp [region_wrap_q]
  · intro n cu e a b pc hn h1 h2
    unfold spec_wrap_offset
    split_ifs with hs1 hs2
    · exact ⟨fun _ => ⟨by simp; linarith, by simp; linarith⟩,
        fun hA _ => ((by omega : False)).elim,
        fun hA => ((by omega : False)).elim⟩
    · exact ⟨fun hA => ((by omega : False)).elim,
        fun hA hB => ((by omega : False)).elim,
        fun _ => ⟨by simp; linarith, by simp; linarith⟩⟩
    · exact ⟨fun hA => ((by omega : False)).elim,
        fun _ _ => by simp,
        fun hA => ((by omega : False)).elim⟩

/-- Witness for C6 on explicit inputs: in the x-periodic container `pecon`
(grid 5³, x length 1) with current box `(1,2,3)`, offset `(2,0,0)` wraps
below on x (since `1+2 < 5`), giving target index `7` and displacement `-1`
while the non-periodic y,z displacements `9` pass through; the clamped
coordinate `2+1` on a non-periodic axis stays in `[0,5)` with no
displacement; and a stored coordinate `1/2 ∈ [0,1)` displaced by the
below-wrap value lands in `[-1, 0)`. -/
theorem claim6_witness :
    region_index pecon 1 2 3 0 2 0 0 9 9 9 = (7, -1, 9, 9) ∧
    (0 ≤ 2 + region_wrap_e false 5 2 1 ∧ 2 + region_wrap_e false 5 2 1 < 5 ∧
      region_wrap_q false 5 2 1 1 9 = 9) ∧
    ((0 : ℚ) - (1 - 0) ≤ 1/2 + (spec_wrap_offset 5 (1 - 0) 1 2).2 ∧
      (1 : ℚ)/2 + (spec_wrap_offset 5 (1 - 0) 1 2).2 < 1 - (1 - 0)) := by
  obtain ⟨h1, h2, h3⟩ := @claim6_region_index_wrap Unit pecon 1 2 3 0 2 0 0 9 9 9
  refine ⟨?_, h2 5 2 1 1 9 rfl,
    (h3 5 1 2 0 1 (1/2) (by omega) (by norm_num) (by norm_num)).1 (by omega)⟩
  rw [h1]
  norm_num [wrap_or_pass, spec_wrap_offset, pecon, ucon]

/-- C7: an insertion whose coordinate on some non-periodic axis lies outside
that axis's `[a,b]` range is rejected: `put` returns `none` and no particle
is stored. -/
theorem claim7_put_rejects_out_of_domain {Cell : Type} (con : container_base Cell)
    (n : ℤ) (x y z : ℚ)
    (h : (con.xperiodic = false ∧ (x < con.ax ∨ con.bx < x)) ∨
         (con.yperiodic = false ∧ (y < con.ay ∨ con.by_ < y)) ∨
         (con.zperiodic = false ∧ (z < con.az ∨ con.bz < z))) :
    put con n x y z = none := by
  unfold put put_locate_block
  rw [if_pos h]

/-- Witness for C7: the non-periodic `[0,1]³` container rejects the point
`(1.1, 0.5, 0.5)`. -/
theorem claim7_witness : put ucon 7 (11/10 : ℚ) (1/2) (1/2) = none :=
  claim7_put_rejects_out_of_domain ucon 7 (11/10) (1/2) (1/2)
    (Or.inl ⟨rfl, Or.inr (by norm_num [ucon])⟩)

/-- C8: `clear` resets every per-box count to `0` while keeping capacities,
the id/position storage, the walls and the container geometry unchanged; and
an insertion (whether accepted or rejected) never decreases any per-box count
or capacity. -/
theorem claim8_clear_resets_counts_only {Cell : Type} (con : container_base Cell)
    (b n : ℤ) (x y z : ℚ) :
    (clear con).co b = 0 ∧ (clear con).mem = con.mem ∧ (clear con).id = con.id ∧
    (clear con).p = con.p ∧ (clear con).walls = con.walls ∧
    (clear con).ax = con.ax ∧ (clear con).bx = con.bx ∧ (clear con).ay = con.ay ∧
    (clear con).by_ = con.by_ ∧ (clear con).az = con.az ∧ (clear con).bz = con.bz ∧
    (clear con).nx = con.nx ∧ (clear con).ny = con.ny ∧ (clear con).nz = con.nz ∧
    (clear con).xperiodic = con.xperiodic ∧ (clear con).yperiodic = con.yperiodic ∧
    (clear con).zperiodic = con.zperiodic ∧ (clear con).ps = con.ps ∧
    con.co b ≤ ((put con n x y z).getD con).co b ∧
    con.mem b ≤ ((put con n x y z).getD con).mem b := by
  refine ⟨rfl, rfl, rfl, rfl, rfl, rfl, rfl, rfl, rfl, rfl, rfl, rfl, rfl, rfl,
    rfl, rfl, rfl, rfl, ?_, ?_⟩
  · unfold put
    rcases hb : put_locate_block con x y z with _ | ⟨ijk, x2, y2, z2⟩
    · simp
    · simp only [Option.getD_some]
      split_ifs with h
      · rw [h]
        omega
      · omega
  · unfold put
    rcases hb : put_locate_block con x y z with _ | ⟨ijk, x2, y2, z2⟩
    · simp
    · simp only [Option.getD_some]
      split_ifs with h
      · rw [h.1]
        omega
      · omega

/-- C9: with no walls, `point_inside_walls` is vacuously true and
`apply_walls` succeeds while leaving the cell exactly as given. -/
theorem claim9_empty_wall_list_trivial {Cell : Type} (c : Cell) (x y z : ℚ) :
    point_inside_walls ([] : List (wall Cell)) x y z = true ∧
    apply_walls ([] : List (wall Cell)) c x y z = (true, c) :=
  ⟨rfl, rfl⟩

/-- Counterexample to C10 as stated: in the concrete weighted container
`cpoly0`, the source radius `0` satisfies `0 ≤ r_s ≤ max_radius` with
`max_radius = 1 > 0`, yet `r_init` produces `r_mul = 0`, refuting the claimed
strict bound `0 < r_mul`. -/
theorem claim10_counterexample :
    0 ≤ cpoly0.p 0 3 ∧ cpoly0.p 0 3 ≤ cpoly0.max_radius ∧
    (0 : ℚ) < cpoly0.max_radius ∧ ¬ (0 : ℚ) < (r_init cpoly0 0 0).r_mul := by
  refine ⟨?_, ?_, ?_, ?_⟩ <;> norm_num [cpoly0, ucon, r_init]

/-- C10 amended: under `0 ≤ r_s ≤ max_radius` and `max_radius > 0`, the
multiplier satisfies `0 ≤ r_mul ≤ 1` (equality `r_mul = 0` occurs at
`r_s = 0`), so the weighted cutoff `r_mul·lrs` never exceeds `lrs` for
`lrs ≥ 0`. -/
theorem claim10_amended_r_mul_bounds {Cell : Type} (cp : container_poly Cell)
    (ijk : ℤ) (s : ℕ) (lrs : ℚ)
    (h0 : 0 ≤ cp.p ijk (4 * s + 3)) (h1 : cp.p ijk (4 * s + 3) ≤ cp.max_radius)
    (hM : 0 < cp.max_radius) (hl : 0 ≤ lrs) :
    0 ≤ (r_init cp ijk s).r_mul ∧ (r_init cp ijk s).r_mul ≤ 1 ∧
    r_cutoff (r_init cp ijk s) lrs ≤ lrs := by
  have hMr : 0 < cp.max_radius + cp.p ijk (4 * s + 3) := by linarith
  have key : (r_init cp ijk s).r_mul
      = 2 * cp.p ijk (4 * s + 3) / (cp.max_radius + cp.p ijk (4 * s + 3)) := by
    simp only [r_init]
    field_simp
    ring
  have h2 : 0 ≤ (r_init cp ijk s).r_mul := by
    rw [key]
    exact div_nonneg (by linarith) hMr.le
  have h3 : (r_init cp ijk s).r_mul ≤ 1 := by
    rw [key, div_le_one hMr]
    linarith
  refine ⟨h2, h3, ?_⟩
  unfold r_cutoff
  calc (r_init cp ijk s).r_mul * lrs ≤ 1 * lrs := mul_le_mul_of_nonneg_right h3 hl
    _ = lrs := one_mul lrs

/-- Witness for the amended C10: in the concrete weighted container `cpoly1`
(source radius `1/2`, maximum radius `1`) with `lrs = 3`, the multiplier lies
in `[0,1]` and the weighted cutoff does not exceed `3`. -/
theorem claim10_witness :
    0 ≤ (r_init cpoly1 0 0).r_mul ∧ (r_init cpoly1 0 0).r_mul ≤ 1 ∧
    r_cutoff (r_init cpoly1 0 0) 3 ≤ 3 :=
  claim10_amended_r_mul_bounds cpoly1 0 0 3 (by norm_num [cpoly1, ucon])
    (by norm_num [cpoly1, ucon]) (by norm_num [cpoly1, ucon]) (by norm_num)

end Voro
